import Mathlib

/-!
Shallow embedding of the SysInfo sampling/aggregation engine (src/main.rs).

Modelling conventions:
* Rust `u64` counters become `ℕ` (saturating subtraction of `u64` is exactly
  truncated subtraction on `ℕ` for in-range values).
* Rust `f32` view values become `ℚ`; every arithmetic step appearing in the
  claims (division by the power of two 1024, `* 100`, `round`, `max`) is exact
  in `f32` on the claim inputs, so `ℚ` is a faithful model there.  `f32::round`
  rounds half away from zero, which on the nonnegative values involved agrees
  with `round : ℚ → ℤ`.
* `Vec<T>` history buffers become `List`; `Vec::remove(0)` followed by `push`
  becomes `rollPush`.
* The weak UI handle `ui_handle.upgrade()` becomes an `Option Unit`.
-/

namespace SysInfo

/-- `const GIB: f32 = 1024.0 * 1024.0 * 1024.0;` (main.rs line 11). -/
def GIB : ℚ := 1024 * 1024 * 1024

/-- `struct NetworkHistoryPoint { upload: f32, download: f32 }` (lines 15-19). -/
structure NetworkHistoryPoint where
  upload : ℚ
  download : ℚ
deriving DecidableEq, Repr

instance : Inhabited NetworkHistoryPoint := ⟨⟨0, 0⟩⟩

/-- `NetworkHistoryPoint::default()`: both fields zero. -/
def NetworkHistoryPoint.default : NetworkHistoryPoint := ⟨0, 0⟩

/-- `struct SystemHistory` (lines 21-27). -/
structure SystemHistory where
  cpu_history : List ℚ
  memory_history : List ℚ
  net_history : List NetworkHistoryPoint
  last_rx : ℕ
  last_tx : ℕ
deriving DecidableEq, Repr

/-- `SystemHistory::new(size)` (lines 30-38): all three buffers pre-filled
with the default value, counters zero. -/
def SystemHistory.new (size : ℕ) : SystemHistory :=
  { cpu_history := List.replicate size 0
    memory_history := List.replicate size 0
    net_history := List.replicate size NetworkHistoryPoint.default
    last_rx := 0
    last_tx := 0 }

/-- `self.buf.remove(0); self.buf.push(v)` — the body shared by `push_cpu`,
`push_mem`, `push_net` (lines 40-56).  `Vec::remove(0)` drops the front
element; on the nonempty buffers used by the program `List.tail` models it
exactly. -/
def rollPush {α : Type} (l : List α) (v : α) : List α := l.tail ++ [v]

/-- `SystemHistory::push_cpu` (lines 40-43). -/
def SystemHistory.push_cpu (h : SystemHistory) (v : ℚ) : SystemHistory :=
  { h with cpu_history := rollPush h.cpu_history v }

/-- `SystemHistory::push_mem` (lines 45-48). -/
def SystemHistory.push_mem (h : SystemHistory) (v : ℚ) : SystemHistory :=
  { h with memory_history := rollPush h.memory_history v }

/-- `SystemHistory::push_net` (lines 50-56). -/
def SystemHistory.push_net (h : SystemHistory) (up down : ℚ) : SystemHistory :=
  { h with net_history := rollPush h.net_history ⟨up, down⟩ }

/-- One entry of the `sysinfo::Networks` map: the per-refresh delta counters
`received()`/`transmitted()` and the cumulative `total_received()`/
`total_transmitted()`, plus name and MAC. -/
structure NetIface where
  name : String
  received : ℕ
  transmitted : ℕ
  total_received : ℕ
  total_transmitted : ℕ
  mac : String
deriving DecidableEq, Repr

/-- `get_if_addrs::IfAddr` address families. -/
inductive IfAddr where
  | V4 (ip : String)
  | V6 (ip : String)
deriving DecidableEq, Repr

/-- One record returned by `get_if_addrs()`: interface name plus address. -/
structure AddrRecord where
  name : String
  addr : IfAddr
deriving DecidableEq, Repr

/-- `for (_, data) in networks.iter() { total_rx += data.total_received(); }`
(lines 100-105). -/
def sumTotalRx (ifaces : List NetIface) : ℕ :=
  (ifaces.map NetIface.total_received).sum

/-- Same loop for `total_tx += data.total_transmitted()`. -/
def sumTotalTx (ifaces : List NetIface) : ℕ :=
  (ifaces.map NetIface.total_transmitted).sum

/-- `(total.saturating_sub(last) as f32 / 1024.0).max(0.0)` (lines 107-108).
`ℕ` subtraction is the saturating subtraction. -/
def netDelta (total last : ℕ) : ℚ :=
  max (((total - last : ℕ) : ℚ) / 1024) 0

/-- Lines 97-115 of the timer closure: the network-rate observation step.
`is_first_run` is decided by value equality of the stored totals with zero;
the deltas are computed, the stored totals updated unconditionally, and the
history is pushed only when not the first run.  Returns the updated history
together with the sample pushed this tick (if any). -/
def observeNet (h : SystemHistory) (total_rx total_tx : ℕ) :
    SystemHistory × Option NetworkHistoryPoint :=
  let is_first_run := h.last_rx == 0 && h.last_tx == 0
  let down := netDelta total_rx h.last_rx
  let up := netDelta total_tx h.last_tx
  let h1 := { h with last_rx := total_rx, last_tx := total_tx }
  if is_first_run then (h1, none)
  else (h1.push_net up down, some ⟨up, down⟩)

/-- `Home_LineGraph_Data` (the memory gauge of `gather_home_data`). -/
structure HomeGauge where
  lower_val : ℚ
  upper_val : ℚ
  curr_val : ℚ
deriving DecidableEq, Repr

/-- The memory gauge of `gather_home_data` (lines 159-163):
`upper_val = (total_mem / GIB * 100.0).round() / 100.0`, and the same for
`curr_val` with the used bytes. -/
def gather_home_memory (total_mem used_mem : ℕ) : HomeGauge :=
  { lower_val := 0
    upper_val := ((round ((total_mem : ℚ) / GIB * 100) : ℤ) : ℚ) / 100
    curr_val := ((round ((used_mem : ℚ) / GIB * 100) : ℤ) : ℚ) / 100 }

/-- Modelled from the spec: "rounded to 2 decimal places" — the comparator
used to check the gauge formula against the spec's wording. -/
def roundTo2Dp (q : ℚ) : ℚ := ((round (q * 100) : ℤ) : ℚ) / 100

/-- `hist.iter().copied().fold(0.0, f32::max).max(1.0)` — the y-axis maximum
used by the CPU chart (line 202), the memory chart (line 237) and both
network charts (lines 342, 346). -/
def chartYMax (hist : List ℚ) : ℚ := max (hist.foldl max 0) 1

/-- A chart: y-axis max plus the series handed to the UI. -/
structure ChartData where
  ymax : ℚ
  series : List ℚ
deriving DecidableEq, Repr

/-- `cpu_consumption: (y_max, cpu_hist.to_vec())` of `gather_cpu_data`
(lines 202, 226-229). -/
def gather_cpu_chart (cpu_hist : List ℚ) : ChartData :=
  ⟨chartYMax cpu_hist, cpu_hist⟩

/-- `memory_usage: (y_max, mem_hist.to_vec())` of `gather_memory_data`
(lines 237, 264-267). -/
def gather_memory_chart (mem_hist : List ℚ) : ChartData :=
  ⟨chartYMax mem_hist, mem_hist⟩

/-- `total_consumption` of `gather_memory_data` (lines 239-243): guarded
percentage `if total > 0.0 { used / total * 100.0 } else { 0.0 }`. -/
def gather_memory_total_consumption (total used : ℕ) : ℚ :=
  if (0 : ℚ) < (total : ℚ) then ((used : ℚ) / (total : ℚ)) * 100 else 0

/-- The active-interface search of `gather_network_data` (lines 280-286):
first interface whose per-refresh `transmitted()` or `received()` delta is
nonzero. -/
def activeIface (ifaces : List NetIface) : Option NetIface :=
  ifaces.find? fun d => decide (0 < d.transmitted) || decide (0 < d.received)

/-- Whether an address record is IPv4. -/
def addrIsV4 : IfAddr → Bool
  | .V4 _ => true
  | .V6 _ => false

/-- The IP string carried by an address record. -/
def addrIp : IfAddr → String
  | .V4 ip => ip
  | .V6 ip => ip

/-- The IP-resolution loop of `gather_network_data` (lines 288-299 for the
active interface, 310-322 per row): walk all address records, and on every
record whose name matches overwrite the field of its family.  No `break`:
later matches overwrite earlier ones.  Both fields start at the placeholder
`"—"`.  `resolveStep` is one iteration of that loop. -/
def resolveStep (ifaceName : String) (acc : String × String) (r : AddrRecord) :
    String × String :=
  if r.name == ifaceName then
    match r.addr with
    | .V4 ip => (ip, acc.2)
    | .V6 ip => (acc.1, ip)
  else acc

/-- The full loop: fold `resolveStep` over the address records, starting from
the placeholder pair. -/
def resolveIPs (ifaceName : String) (addrs : List AddrRecord) : String × String :=
  addrs.foldl (resolveStep ifaceName) ("—", "—")

/-- Modelled from the spec side for comparison: "the LAST matching record per
address family wins" — the first match in the reversed record list, else the
placeholder. -/
def specResolve (ifaceName : String) (addrs : List AddrRecord) : String × String :=
  ( ((addrs.reverse.find? fun r => r.name == ifaceName && addrIsV4 r.addr).map
      fun r => addrIp r.addr).getD "—"
  , ((addrs.reverse.find? fun r => r.name == ifaceName && !addrIsV4 r.addr).map
      fun r => addrIp r.addr).getD "—" )

/-- `Network_Active_Info_Data` (lines 350-355). -/
structure ActiveInfo where
  interface_name : String
  ipv4 : String
  ipv6 : String
  mac : String
deriving DecidableEq, Repr

/-- The active-info assembly of `gather_network_data` (lines 277-299,
350-355): name and MAC from the first interface with nonzero deltas (else
`"—"`), IPs resolved against that name. -/
def gather_active_info (ifaces : List NetIface) (addrs : List AddrRecord) : ActiveInfo :=
  let iface_name := match activeIface ifaces with
    | some d => d.name
    | none => "—"
  let mac := match activeIface ifaces with
    | some d => d.mac
    | none => "—"
  let ips := resolveIPs iface_name addrs
  ⟨iface_name, ips.1, ips.2, mac⟩

/-- One row of the per-interface table (lines 310-333); the MB formatting of
the byte totals is presentation-only and kept as raw bytes here. -/
structure InterfaceRow where
  name : String
  ipv4 : String
  ipv6 : String
  mac : String
  sent_bytes : ℕ
  received_bytes : ℕ
deriving DecidableEq, Repr

/-- The per-interface table loop of `gather_network_data` (lines 305-333). -/
def gather_interface_rows (ifaces : List NetIface) (addrs : List AddrRecord) :
    List InterfaceRow :=
  ifaces.map fun d =>
    let ips := resolveIPs d.name addrs
    ⟨d.name, ips.1, ips.2, d.mac, d.total_transmitted, d.total_received⟩

/-- `Network_Full_Data` — the fields of the Network view the claims are
about (lines 335-363). -/
structure NetworkFullData where
  current_speed : NetworkHistoryPoint
  upload_chart : ChartData
  download_chart : ChartData
  active_info : ActiveInfo
  total_sent : ℕ
  total_received : ℕ
  all_interfaces : List InterfaceRow
deriving DecidableEq, Repr

/-- `gather_network_data` (lines 271-364): `current_speed` comes from
`hist.last().cloned().unwrap_or_default()`; the up/down series are the
projections of the history buffer with the shared y-max formula. -/
def gather_network_data (ifaces : List NetIface) (addrs : List AddrRecord)
    (hist : List NetworkHistoryPoint) (total_tx total_rx : ℕ) : NetworkFullData :=
  let last_point := hist.getLast?.getD NetworkHistoryPoint.default
  let up_vals := hist.map NetworkHistoryPoint.upload
  let down_vals := hist.map NetworkHistoryPoint.download
  { current_speed := last_point
    upload_chart := ⟨chartYMax up_vals, up_vals⟩
    download_chart := ⟨chartYMax down_vals, down_vals⟩
    active_info := gather_active_info ifaces addrs
    total_sent := total_tx
    total_received := total_rx
    all_interfaces := gather_interface_rows ifaces addrs }

/-- The fresh per-tick readings from the OS-info provider. -/
structure TickInput where
  cpu : ℚ
  mem_used : ℕ
  mem_total : ℕ
  ifaces : List NetIface
  addrs : List AddrRecord

/-- Everything published to the presentation layer in one tick, restricted
to the fields the claims are about. -/
structure PublishedViews where
  home_memory : HomeGauge
  home_chart : List ℚ
  cpu_chart : ChartData
  memory_chart : ChartData
  memory_total_consumption : ℚ
  network : NetworkFullData

/-- The body of the timer closure (lines 73-141).  `ui` is the result of
`ui_handle.upgrade()`: `none` returns immediately, touching nothing and
publishing nothing.  Otherwise CPU and memory history are pushed, the
network observation runs, and the view records are assembled from the
updated history. -/
def tick (ui : Option Unit) (inp : TickInput) (h : SystemHistory) :
    SystemHistory × Option PublishedViews :=
  match ui with
  | none => (h, none)
  | some _ =>
    let cpu := inp.cpu
    let mem := (inp.mem_used : ℚ) / (inp.mem_total : ℚ) * 100
    let h1 := (h.push_cpu cpu).push_mem mem
    let total_rx := sumTotalRx inp.ifaces
    let total_tx := sumTotalTx inp.ifaces
    let h2 := (observeNet h1 total_rx total_tx).1
    (h2,
      some
        { home_memory := gather_home_memory inp.mem_total inp.mem_used
          home_chart := h2.cpu_history
          cpu_chart := gather_cpu_chart h2.cpu_history
          memory_chart := gather_memory_chart h2.memory_history
          memory_total_consumption :=
            gather_memory_total_consumption inp.mem_total inp.mem_used
          network :=
            gather_network_data inp.ifaces inp.addrs h2.net_history
              total_tx total_rx })

/-- Repeated 1-second timer: the closure runs on every tick regardless of
what earlier ticks did; collects the published snapshots. -/
def runTicks (steps : List (Option Unit × TickInput)) (h : SystemHistory) :
    SystemHistory × List PublishedViews :=
  match steps with
  | [] => (h, [])
  | (ui, inp) :: rest =>
    let r := tick ui inp h
    let rr := runTicks rest r.1
    (rr.1, r.2.toList ++ rr.2)

/-! ## Helper lemmas -/

lemma rollPush_length {α : Type} (l : List α) (v : α) (h : l ≠ []) :
    (rollPush l v).length = l.length := by
  cases l with
  | nil => exact absurd rfl h
  | cons a t => simp [rollPush]

lemma rollPush_getElem_last {α : Type} (l : List α) (v : α) :
    (rollPush l v)[l.length - 1]? = some v := by
  unfold rollPush
  rw [List.getElem?_append_right (by simp)]
  simp

lemma rollPush_getElem_shift {α : Type} (l : List α) (v : α) (i : ℕ)
    (h : i + 1 < l.length) :
    (rollPush l v)[i]? = l[i + 1]? := by
  unfold rollPush
  rw [List.getElem?_append_left (by simp; omega)]
  simp

lemma foldl_max_init_le (l : List ℚ) (a : ℚ) : a ≤ l.foldl max a := by
  induction l generalizing a with
  | nil => simp
  | cons x t ih =>
    rw [List.foldl_cons]
    exact le_trans (le_max_left a x) (ih (max a x))

lemma le_foldl_max_of_mem {l : List ℚ} {x : ℚ} (a : ℚ) (hx : x ∈ l) :
    x ≤ l.foldl max a := by
  induction l generalizing a with
  | nil => simp at hx
  | cons y t ih =>
    rw [List.foldl_cons]
    rcases List.mem_cons.mp hx with rfl | hmem
    · exact le_trans (le_max_right a x) (foldl_max_init_le t _)
    · exact ih _ hmem

lemma foldl_max_mem (l : List ℚ) (a : ℚ) :
    l.foldl max a = a ∨ l.foldl max a ∈ l := by
  induction l generalizing a with
  | nil => left; rfl
  | cons y t ih =>
    rw [List.foldl_cons]
    rcases ih (max a y) with heq | hmem
    · rcases max_choice a y with h1 | h1
      · left; rw [heq, h1]
      · right; rw [heq, h1]; exact List.mem_cons_self y t
    · right; exact List.mem_cons_of_mem y hmem

lemma one_le_chartYMax (l : List ℚ) : 1 ≤ chartYMax l := le_max_right _ _

lemma le_chartYMax_of_mem {l : List ℚ} {x : ℚ} (hx : x ∈ l) :
    x ≤ chartYMax l :=
  le_trans (le_foldl_max_of_mem 0 hx) (le_max_left _ _)

lemma chartYMax_eq_one_or_mem (l : List ℚ) :
    chartYMax l = 1 ∨ chartYMax l ∈ l := by
  unfold chartYMax
  rcases max_choice (l.foldl max 0) 1 with h | h
  · rcases foldl_max_mem l 0 with h0 | hm
    · have h1 : (1 : ℚ) ≤ l.foldl max 0 := h ▸ le_max_right _ _
      rw [h0] at h1
      exact absurd h1 (by norm_num)
    · right; rw [h]; exact hm
  · left; exact h

lemma chartYMax_of_all_zero {l : List ℚ} (hz : ∀ x ∈ l, x = 0) :
    chartYMax l = 1 := by
  rcases chartYMax_eq_one_or_mem l with h | h
  · exact h
  · have h0 := hz _ h
    have h1 := one_le_chartYMax l
    rw [h0] at h1
    exact absurd h1 (by norm_num)

lemma netDelta_eq (total last : ℕ) :
    netDelta total last = ((total - last : ℕ) : ℚ) / 1024 := by
  unfold netDelta
  exact max_eq_left (by positivity)

lemma observeNet_first (h : SystemHistory) (rx tx : ℕ)
    (h0 : h.last_rx = 0) (h1 : h.last_tx = 0) :
    observeNet h rx tx = ({ h with last_rx := rx, last_tx := tx }, none) := by
  simp [observeNet, h0, h1]

lemma observeNet_not_first (h : SystemHistory) (rx tx : ℕ)
    (hne : ¬(h.last_rx = 0 ∧ h.last_tx = 0)) :
    observeNet h rx tx
      = ({ h with
            last_rx := rx
            last_tx := tx
            net_history :=
              rollPush h.net_history
                ⟨netDelta tx h.last_tx, netDelta rx h.last_rx⟩ },
         some ⟨netDelta tx h.last_tx, netDelta rx h.last_rx⟩) := by
  have hc : (h.last_rx == 0 && h.last_tx == 0) = false := by
    rw [Bool.and_eq_false_iff]
    rcases Decidable.not_and_iff_or_not.mp hne with h1 | h1
    · left; simpa using h1
    · right; simpa using h1
  simp [observeNet, hc, SystemHistory.push_net]

lemma find?_first_position {α : Type} (p : α → Bool) (l : List α) (a : α)
    (h : l.find? p = some a) :
    ∃ l1 l2, l = l1 ++ a :: l2 ∧ ∀ x ∈ l1, p x = false := by
  induction l with
  | nil => simp at h
  | cons y t ih =>
    by_cases hy : p y
    · rw [List.find?_cons_of_pos t hy] at h
      obtain rfl := Option.some.inj h
      exact ⟨[], t, rfl, by simp⟩
    · rw [List.find?_cons_of_neg t hy] at h
      obtain ⟨l1, l2, rfl, hall⟩ := ih h
      refine ⟨y :: l1, l2, rfl, ?_⟩
      intro x hx
      rcases List.mem_cons.mp hx with rfl | hmem
      · exact Bool.of_not_eq_true hy
      · exact hall x hmem

lemma foldr_resolve (n : String) (m : List AddrRecord) :
    m.foldr (fun r acc => resolveStep n acc r) ("—", "—")
      = ( ((m.find? fun r => r.name == n && addrIsV4 r.addr).map
            fun r => addrIp r.addr).getD "—"
        , ((m.find? fun r => r.name == n && !addrIsV4 r.addr).map
            fun r => addrIp r.addr).getD "—" ) := by
  induction m with
  | nil => rfl
  | cons r t ih =>
    rw [List.foldr_cons, ih]
    by_cases hn : (r.name == n) = true
    · cases haddr : r.addr with
      | V4 ip =>
        simp [resolveStep, hn, haddr, addrIsV4, addrIp]
      | V6 ip =>
        simp [resolveStep, hn, haddr, addrIsV4, addrIp]
    · simp [resolveStep, hn]

lemma resolveIPs_eq_reverse_foldr (n : String) (addrs : List AddrRecord) :
    resolveIPs n addrs
      = addrs.reverse.foldr (fun r acc => resolveStep n acc r) ("—", "—") := by
  rw [List.foldr_reverse]
  rfl

lemma resolveIPs_spec (n : String) (addrs : List AddrRecord) :
    resolveIPs n addrs = specResolve n addrs := by
  rw [resolveIPs_eq_reverse_foldr, foldr_resolve]
  rfl

lemma resolveIPs_no_match (n : String) (addrs : List AddrRecord)
    (h : ∀ r ∈ addrs, r.name ≠ n) : resolveIPs n addrs = ("—", "—") := by
  rw [resolveIPs_spec]
  unfold specResolve
  have h4 : (addrs.reverse.find? fun r => r.name == n && addrIsV4 r.addr) = none := by
    rw [List.find?_eq_none]
    intro r hr
    simp [h r (List.mem_reverse.mp hr)]
  have h6 : (addrs.reverse.find? fun r => r.name == n && !addrIsV4 r.addr) = none := by
    rw [List.find?_eq_none]
    intro r hr
    simp [h r (List.mem_reverse.mp hr)]
  rw [h4, h6]
  rfl

/-! ## Claim theorems -/

/-- Claim C1, counterexample.  The claim asserts that first-ness is tracked
by an explicit boolean flag, so that after a first observation with
legitimately zero totals the next observation returns a sample and pushes
it.  On the code, first-ness is value equality of the stored totals with
zero: after observing (0, 0) from a fresh history, the following observation
(rx = 5, tx = 5) is again treated as the first — it returns no sample and
leaves the network history unchanged. -/
theorem C1_counterexample :
    (observeNet (observeNet (SystemHistory.new 3) 0 0).1 5 5).2 = none
    ∧ (observeNet (observeNet (SystemHistory.new 3) 0 0).1 5 5).1.net_history
        = (SystemHistory.new 3).net_history := by
  exact ⟨rfl, rfl⟩

/-- Claim C1, amended: the first network observation only stores the
cumulative totals and pushes no network-history sample, but first-ness is
decided by value equality — an observation is treated as first exactly when
the stored totals are both zero — not by an explicit boolean flag; hence
after a first observation whose cumulative totals are legitimately both
zero, the immediately following observation is again treated as first and
pushes nothing.  Stored totals are updated on every observation. -/
theorem C1_amended (h : SystemHistory) (rx tx : ℕ) :
    ((observeNet h rx tx).2 = none ↔ h.last_rx = 0 ∧ h.last_tx = 0)
    ∧ (observeNet h rx tx).1.last_rx = rx
    ∧ (observeNet h rx tx).1.last_tx = tx
    ∧ (h.last_rx = 0 ∧ h.last_tx = 0 →
        (observeNet h rx tx).1.net_history = h.net_history)
    ∧ (¬(h.last_rx = 0 ∧ h.last_tx = 0) →
        (observeNet h rx tx).1.net_history
          = rollPush h.net_history
              ⟨netDelta tx h.last_tx, netDelta rx h.last_rx⟩) := by
  by_cases hf : h.last_rx = 0 ∧ h.last_tx = 0
  · rw [observeNet_first h rx tx hf.1 hf.2]
    exact ⟨by simp [hf], rfl, rfl, fun _ => rfl, fun hc => absurd hf hc⟩
  · rw [observeNet_not_first h rx tx hf]
    refine ⟨by simp [hf], rfl, rfl, fun hc => absurd hc hf, fun _ => rfl⟩

/-- Claim C1 amended, witness: a fresh history treats the first observation
as first (no sample), and a history with stored totals (500, 200) pushes
the delta sample on the next observation. -/
theorem C1_amended_witness :
    (observeNet (SystemHistory.new 3) 7 9).2 = none
    ∧ (observeNet (SystemHistory.mk [] [] [] 500 200) 1500 250).1.net_history
        = rollPush (SystemHistory.mk [] [] [] 500 200).net_history
            ⟨netDelta 250 200, netDelta 1500 500⟩ := by
  constructor
  · exact (C1_amended (SystemHistory.new 3) 7 9).1.mpr ⟨rfl, rfl⟩
  · exact (C1_amended (SystemHistory.mk [] [] [] 500 200) 1500 250).2.2.2.2
      (by decide)

/-- Claim C2: for an observation that is not treated as the first (the
stored totals are not both zero), the returned sample is
`up = (total_tx saturating-minus last_tx) / 1024`,
`down = (total_rx saturating-minus last_rx) / 1024`, the stored totals are
updated to the new values, and a counter decrease clamps the delta to 0. -/
theorem C2_delta (h : SystemHistory) (rx tx : ℕ)
    (hne : ¬(h.last_rx = 0 ∧ h.last_tx = 0)) :
    (observeNet h rx tx).2
        = some ⟨((tx - h.last_tx : ℕ) : ℚ) / 1024,
                ((rx - h.last_rx : ℕ) : ℚ) / 1024⟩
    ∧ (observeNet h rx tx).1.last_rx = rx
    ∧ (observeNet h rx tx).1.last_tx = tx
    ∧ (rx ≤ h.last_rx →
        (observeNet h rx tx).2.map NetworkHistoryPoint.download = some 0) := by
  rw [observeNet_not_first h rx tx hne]
  refine ⟨by rw [netDelta_eq, netDelta_eq], rfl, rfl, ?_⟩
  intro hle
  have hz : rx - h.last_rx = 0 := Nat.sub_eq_zero_of_le hle
  simp [netDelta_eq, hz]

/-- Claim C2, witness: after stored totals (rx = 500, tx = 200), observing
(rx = 1500, tx = 250) yields the sample {up = 50/1024, down = 1000/1024};
after stored rx = 500, observing rx = 100 yields download = 0. -/
theorem C2_delta_witness :
    (observeNet (SystemHistory.mk [] [] [] 500 200) 1500 250).2
        = some ⟨50 / 1024, 1000 / 1024⟩
    ∧ (observeNet (SystemHistory.mk [] [] [] 500 500) 100 600).2.map
        NetworkHistoryPoint.download = some 0 := by
  constructor
  · have h := (C2_delta (SystemHistory.mk [] [] [] 500 200) 1500 250
      (by decide)).1
    rw [h]
    norm_num
  · exact (C2_delta (SystemHistory.mk [] [] [] 500 500) 100 600
      (by decide)).2.2.2 (by norm_num)

/-- Claim C3: each history buffer is created with length equal to its
capacity (default-filled), and every push preserves that length exactly,
with strict FIFO semantics: the element at index 0 is evicted (every
surviving element shifts down by one, keeping chronological order) and the
pushed value is read back at index capacity - 1. -/
theorem C3_fifo (n : ℕ) (h : SystemHistory) (v w : ℚ) (p : NetworkHistoryPoint)
    (hn : 0 < n)
    (hc : h.cpu_history.length = n) (hm : h.memory_history.length = n)
    (hv : h.net_history.length = n) :
    ((SystemHistory.new n).cpu_history.length = n
      ∧ (SystemHistory.new n).memory_history.length = n
      ∧ (SystemHistory.new n).net_history.length = n)
    ∧ ((h.push_cpu v).cpu_history.length = n
      ∧ (h.push_cpu v).cpu_history[n - 1]? = some v
      ∧ ∀ i, i + 1 < n → (h.push_cpu v).cpu_history[i]? = h.cpu_history[i + 1]?)
    ∧ ((h.push_mem w).memory_history.length = n
      ∧ (h.push_mem w).memory_history[n - 1]? = some w
      ∧ ∀ i, i + 1 < n →
          (h.push_mem w).memory_history[i]? = h.memory_history[i + 1]?)
    ∧ ((h.push_net p.upload p.download).net_history.length = n
      ∧ (h.push_net p.upload p.download).net_history[n - 1]? = some p
      ∧ ∀ i, i + 1 < n →
          (h.push_net p.upload p.download).net_history[i]? = h.net_history[i + 1]?) := by
  have hcne : h.cpu_history ≠ [] := by
    intro he; rw [he] at hc; simp at hc; omega
  have hmne : h.memory_history ≠ [] := by
    intro he; rw [he] at hm; simp at hm; omega
  have hvne : h.net_history ≠ [] := by
    intro he; rw [he] at hv; simp at hv; omega
  refine ⟨⟨by simp [SystemHistory.new], by simp [SystemHistory.new],
      by simp [SystemHistory.new]⟩, ⟨?_, ?_, ?_⟩, ⟨?_, ?_, ?_⟩, ⟨?_, ?_, ?_⟩⟩
  · rw [SystemHistory.push_cpu, rollPush_length _ _ hcne, hc]
  · have := rollPush_getElem_last h.cpu_history v
    rwa [hc] at this
  · intro i hi
    exact rollPush_getElem_shift h.cpu_history v i (by omega)
  · rw [SystemHistory.push_mem, rollPush_length _ _ hmne, hm]
  · have := rollPush_getElem_last h.memory_history w
    rwa [hm] at this
  · intro i hi
    exact rollPush_getElem_shift h.memory_history w i (by omega)
  · rw [SystemHistory.push_net, rollPush_length _ _ hvne, hv]
  · have := rollPush_getElem_last h.net_history p
    rwa [hv] at this
  · intro i hi
    exact rollPush_getElem_shift h.net_history p i (by omega)

/-- Claim C3, witness: on a fresh capacity-3 history, pushing reads back at
index 2 and keeps the length at 3. -/
theorem C3_fifo_witness :
    ((SystemHistory.new 3).push_cpu 5).cpu_history[2]? = some 5
    ∧ ((SystemHistory.new 3).push_cpu 5).cpu_history.length = 3 := by
  have h := C3_fifo 3 (SystemHistory.new 3) 5 6 ⟨7, 8⟩ (by norm_num)
    rfl rfl rfl
  exact ⟨h.2.1.2.1, h.2.1.1⟩

/-- Claim C4, counterexample.  The claim asserts the active interface is
chosen by nonzero *cumulative* counters.  The code tests the per-refresh
delta counters `transmitted()`/`received()` instead: an interface with
cumulative totals (rx = 500, tx = 10) but zero per-refresh deltas is not
selected, and the placeholder is displayed. -/
theorem C4_counterexample :
    (gather_active_info
        [⟨"eth0", 0, 0, 0, 0, "aa"⟩, ⟨"wlan0", 0, 0, 500, 10, "bb"⟩]
        []).interface_name = "—"
    ∧ ("—" : String) ≠ "wlan0" := by
  exact ⟨rfl, by decide⟩

/-- Claim C4, amended: the interface shown in the active-info panel is the
first interface, in provider enumeration order, whose *per-refresh delta*
transmitted or received byte counters (`transmitted()`/`received()`, bytes
since the previous refresh — not the cumulative totals) are nonzero; if no
interface qualifies, the name and MAC fields display the placeholder "—",
and the IP fields display "—" as well provided no enumerated address record
carries the placeholder as its interface name. -/
theorem C4_amended (ifaces : List NetIface) (addrs : List AddrRecord) :
    (∀ d, activeIface ifaces = some d →
        (0 < d.transmitted ∨ 0 < d.received)
        ∧ (∃ l1 l2, ifaces = l1 ++ d :: l2
            ∧ ∀ e ∈ l1, e.transmitted = 0 ∧ e.received = 0)
        ∧ (gather_active_info ifaces addrs).interface_name = d.name
        ∧ (gather_active_info ifaces addrs).mac = d.mac)
    ∧ ((∀ d ∈ ifaces, d.transmitted = 0 ∧ d.received = 0) →
        (gather_active_info ifaces addrs).interface_name = "—"
        ∧ (gather_active_info ifaces addrs).mac = "—"
        ∧ ((∀ r ∈ addrs, r.name ≠ "—") →
            (gather_active_info ifaces addrs).ipv4 = "—"
            ∧ (gather_active_info ifaces addrs).ipv6 = "—")) := by
  constructor
  · intro d hd
    have hp := List.find?_some hd
    have hq : 0 < d.transmitted ∨ 0 < d.received := by
      rcases Bool.or_eq_true_iff.mp hp with h | h
      · exact Or.inl (of_decide_eq_true h)
      · exact Or.inr (of_decide_eq_true h)
    obtain ⟨l1, l2, rfl, hall⟩ := find?_first_position _ _ _ hd
    refine ⟨hq, ⟨l1, l2, rfl, ?_⟩, ?_, ?_⟩
    · intro e he
      have := hall e he
      rw [Bool.or_eq_false_iff] at this
      constructor
      · have := this.1
        simpa using of_decide_eq_false this
      · have := this.2
        simpa using of_decide_eq_false this
    · simp only [gather_active_info, hd]
    · simp only [gather_active_info, hd]
  · intro hz
    have hnone : activeIface ifaces = none := by
      rw [activeIface, List.find?_eq_none]
      intro d hd
      have := hz d hd
      simp [this.1, this.2]
    refine ⟨by simp only [gather_active_info, hnone],
      by simp only [gather_active_info, hnone], ?_⟩
    intro ha
    have hres : resolveIPs "—" addrs = ("—", "—") := resolveIPs_no_match _ _ ha
    constructor
    · simp only [gather_active_info, hnone, hres]
    · simp only [gather_active_info, hnone, hres]

/-- Claim C4 amended, witness: with per-refresh deltas
[{eth0, 0, 0}, {wlan0, rx = 500, tx = 10}] the selected interface is wlan0;
with no qualifying interface the placeholder is shown. -/
theorem C4_amended_witness :
    (gather_active_info
        [⟨"eth0", 0, 0, 0, 0, "aa"⟩, ⟨"wlan0", 500, 10, 500, 10, "bb"⟩]
        []).interface_name = "wlan0"
    ∧ (gather_active_info [⟨"eth0", 0, 0, 0, 0, "aa"⟩] []).ipv4 = "—" := by
  constructor
  · exact ((C4_amended
      [⟨"eth0", 0, 0, 0, 0, "aa"⟩, ⟨"wlan0", 500, 10, 500, 10, "bb"⟩] []).1
      ⟨"wlan0", 500, 10, 500, 10, "bb"⟩ (by decide)).2.2.1
  · exact (((C4_amended [⟨"eth0", 0, 0, 0, 0, "aa"⟩] []).2
      (by decide)).2.2 (by simp)).1

/-- Claim C5, counterexample.  The claim's formula gives
`upper_val = round2(total_memory / GiB)`, which at
total_memory = 8589934592 bytes (8 GiB) is 8.00 — not 100.00 as the claim's
"in particular" asserts: |8 - 100| is far above 0.01. -/
theorem C5_counterexample :
    (gather_home_memory 8589934592 0).upper_val = 8
    ∧ ¬|(gather_home_memory 8589934592 0).upper_val - 100| ≤ (1 : ℚ) / 100 := by
  have h8 : (gather_home_memory 8589934592 0).upper_val = 8 := by
    unfold gather_home_memory GIB
    norm_num
  refine ⟨h8, ?_⟩
  rw [h8]
  norm_num

/-- Claim C5, amended: the Home-view memory gauge has
`upper_val = total_memory_bytes / GiB` rounded to 2 decimal places and
`curr_val = used_bytes / GiB` with the same rounding; in particular, for
total_memory = 8589934592 bytes (8 GiB), upper_val = 8.00 (not 100.00). -/
theorem C5_amended (total used : ℕ) :
    (gather_home_memory total used).upper_val = roundTo2Dp ((total : ℚ) / GIB)
    ∧ (gather_home_memory total used).curr_val = roundTo2Dp ((used : ℚ) / GIB)
    ∧ (gather_home_memory 8589934592 used).upper_val = 8 := by
  refine ⟨rfl, rfl, ?_⟩
  unfold gather_home_memory GIB
  norm_num

/-- Claim C6: for the CPU and memory history charts and the network
upload/download charts, the y-axis maximum is the maximum of the buffer's
contents clamped to at least 1 (it is 1 when every entry is 0, never
below 1), and the chart series equals the buffer contents verbatim. -/
theorem C6_chart_ymax (hist : List ℚ) (ifaces : List NetIface)
    (addrs : List AddrRecord) (nhist : List NetworkHistoryPoint)
    (ttx trx : ℕ) :
    ((gather_cpu_chart hist).series = hist
      ∧ 1 ≤ (gather_cpu_chart hist).ymax
      ∧ (∀ x ∈ hist, x ≤ (gather_cpu_chart hist).ymax)
      ∧ ((gather_cpu_chart hist).ymax = 1 ∨ (gather_cpu_chart hist).ymax ∈ hist)
      ∧ ((∀ x ∈ hist, x = 0) → (gather_cpu_chart hist).ymax = 1))
    ∧ gather_memory_chart hist = gather_cpu_chart hist
    ∧ ((gather_network_data ifaces addrs nhist ttx trx).upload_chart.series
          = nhist.map NetworkHistoryPoint.upload
      ∧ (gather_network_data ifaces addrs nhist ttx trx).download_chart.series
          = nhist.map NetworkHistoryPoint.download
      ∧ 1 ≤ (gather_network_data ifaces addrs nhist ttx trx).upload_chart.ymax
      ∧ 1 ≤ (gather_network_data ifaces addrs nhist ttx trx).download_chart.ymax
      ∧ (∀ x ∈ nhist.map NetworkHistoryPoint.upload,
          x ≤ (gather_network_data ifaces addrs nhist ttx trx).upload_chart.ymax)
      ∧ (∀ x ∈ nhist.map NetworkHistoryPoint.download,
          x ≤ (gather_network_data ifaces addrs nhist ttx trx).download_chart.ymax)) := by
  refine ⟨⟨rfl, one_le_chartYMax hist, fun x hx => le_chartYMax_of_mem hx,
      chartYMax_eq_one_or_mem hist, fun hz => chartYMax_of_all_zero hz⟩,
    rfl, rfl, rfl,
    one_le_chartYMax _, one_le_chartYMax _,
    fun x hx => le_chartYMax_of_mem hx, fun x hx => le_chartYMax_of_mem hx⟩

/-- Claim C6, witness: an all-zero history yields y-max exactly 1, and the
series is handed over verbatim. -/
theorem C6_chart_ymax_witness :
    (gather_cpu_chart [0, 0]).ymax = 1
    ∧ (gather_cpu_chart [0, 0]).series = [0, 0] := by
  have h := C6_chart_ymax [0, 0] [] [] [] 0 0
  exact ⟨h.1.2.2.2.2 (by decide), h.1.1⟩

/-- Claim C7, counterexample.  The claim asserts the *first* matching
address record per family wins.  The resolution loop has no break and later
matches overwrite earlier ones, so with two IPv4 records for the same name
the displayed address is the second one, not the first. -/
theorem C7_counterexample :
    (resolveIPs "eth0"
        [⟨"eth0", .V4 "1.1.1.1"⟩, ⟨"eth0", .V4 "2.2.2.2"⟩]).1 = "2.2.2.2"
    ∧ ("2.2.2.2" : String) ≠ "1.1.1.1" := by
  exact ⟨rfl, by decide⟩

/-- Claim C7, amended: the displayed IPv4 and IPv6 addresses are found by
cross-referencing the interface name against the address-enumeration
source, and the *last* matching record per address family wins (each later
match overwrites the earlier one); a family with no matching record
displays the placeholder "—".  This holds both for the active-info panel
and for every row of the per-interface table. -/
theorem C7_amended (n : String) (addrs : List AddrRecord)
    (ifaces : List NetIface) :
    resolveIPs n addrs = specResolve n addrs
    ∧ ((∀ r ∈ addrs, r.name ≠ n) → resolveIPs n addrs = ("—", "—"))
    ∧ (gather_active_info ifaces addrs).ipv4
        = (specResolve (gather_active_info ifaces addrs).interface_name addrs).1
    ∧ (gather_active_info ifaces addrs).ipv6
        = (specResolve (gather_active_info ifaces addrs).interface_name addrs).2
    ∧ ∀ row ∈ gather_interface_rows ifaces addrs,
        row.ipv4 = (specResolve row.name addrs).1
        ∧ row.ipv6 = (specResolve row.name addrs).2 := by
  refine ⟨resolveIPs_spec n addrs, resolveIPs_no_match n addrs, ?_, ?_, ?_⟩
  · simp only [gather_active_info]
    rw [← resolveIPs_spec]
  · simp only [gather_active_info]
    rw [← resolveIPs_spec]
  · intro row hrow
    obtain ⟨d, _, rfl⟩ := List.mem_map.mp hrow
    exact ⟨(congrArg Prod.fst (resolveIPs_spec d.name addrs)),
      (congrArg Prod.snd (resolveIPs_spec d.name addrs))⟩

/-- Claim C7 amended, witness: two IPv4 records for "eth0" resolve to the
later one, and a name with no records resolves to the placeholders. -/
theorem C7_amended_witness :
    resolveIPs "eth0" [⟨"eth0", .V4 "1.2.3.4"⟩, ⟨"eth0", .V4 "5.6.7.8"⟩]
        = specResolve "eth0" [⟨"eth0", .V4 "1.2.3.4"⟩, ⟨"eth0", .V4 "5.6.7.8"⟩]
    ∧ resolveIPs "wlan0" [] = ("—", "—") := by
  constructor
  · exact (C7_amended "eth0"
      [⟨"eth0", .V4 "1.2.3.4"⟩, ⟨"eth0", .V4 "5.6.7.8"⟩] []).1
  · exact (C7_amended "wlan0" [] []).2.1 (by simp)

/-- Claim C8: when the presentation-layer handle has been invalidated
(the weak-handle upgrade yields nothing), the tick is a no-op — the whole
SystemHistory state is returned unchanged and nothing is published — and
the repeating scheduler is not stopped: a run that begins with a stale tick
continues exactly as the run without it. -/
theorem C8_stale_tick (inp : TickInput) (h : SystemHistory)
    (steps : List (Option Unit × TickInput)) :
    tick none inp h = (h, none)
    ∧ runTicks ((none, inp) :: steps) h = runTicks steps h := by
  exact ⟨rfl, rfl⟩

/-- Claim C9: `gather_memory_data` guards its percentage against a zero
total — when total memory is 0 the total_consumption field is 0, and for
every positive total it is used / total * 100. -/
theorem C9_mem_guard (total used : ℕ) :
    (total = 0 → gather_memory_total_consumption total used = 0)
    ∧ (0 < total →
        gather_memory_total_consumption total used
          = (used : ℚ) / (total : ℚ) * 100) := by
  constructor
  · intro h0
    simp [gather_memory_total_consumption, h0]
  · intro hpos
    have : (0 : ℚ) < (total : ℚ) := by exact_mod_cast hpos
    simp [gather_memory_total_consumption, this]

/-- Claim C9, witness: total 0 gives 0; total 8 with used 2 gives
2 / 8 * 100. -/
theorem C9_mem_guard_witness :
    gather_memory_total_consumption 0 5 = 0
    ∧ gather_memory_total_consumption 8 2 = (2 : ℚ) / 8 * 100 := by
  constructor
  · exact (C9_mem_guard 0 5).1 rfl
  · have h := (C9_mem_guard 8 2).2 (by norm_num)
    rw [h]
    norm_num

/-- Claim C10: the Network view's current_speed is the newest (last)
element of the network-history buffer passed in, defaulting to {0, 0} on an
empty slice; and because the first tick pushes no network sample, a tick
from the freshly constructed 60-slot history publishes an instantaneous
speed of exactly {0, 0} whatever the OS readings are. -/
theorem C10_current_speed (ifaces : List NetIface) (addrs : List AddrRecord)
    (hist : List NetworkHistoryPoint) (ttx trx : ℕ) (inp : TickInput) :
    (gather_network_data ifaces addrs hist ttx trx).current_speed
        = hist.getLast?.getD NetworkHistoryPoint.default
    ∧ (hist = [] →
        (gather_network_data ifaces addrs hist ttx trx).current_speed = ⟨0, 0⟩)
    ∧ (∀ last, hist.getLast? = some last →
        (gather_network_data ifaces addrs hist ttx trx).current_speed = last)
    ∧ ((tick (some ()) inp (SystemHistory.new 60)).2.map
        (fun p => p.network.current_speed)) = some ⟨0, 0⟩ := by
  refine ⟨rfl, ?_, ?_, ?_⟩
  · intro he
    simp [gather_network_data, he, NetworkHistoryPoint.default]
  · intro last hlast
    simp [gather_network_data, hlast]
  · rfl

/-- Claim C10, witness: a one-element history displays that element as the
current speed, and an empty history displays {0, 0}. -/
theorem C10_current_speed_witness :
    (gather_network_data [] [] [⟨3, 4⟩] 0 0).current_speed = ⟨3, 4⟩
    ∧ (gather_network_data [] [] [] 0 0).current_speed = ⟨0, 0⟩ := by
  constructor
  · exact (C10_current_speed [] [] [⟨3, 4⟩] 0 0 ⟨0, 0, 0, [], []⟩).2.2.1
      ⟨3, 4⟩ rfl
  · exact (C10_current_speed [] [] [] 0 0 ⟨0, 0, 0, [], []⟩).2.1 rfl

end SysInfo
